/-
Verification of the beam-analysis report generator (src/main.py).

The Python program reads a tabular dataset, resolves which columns hold the
Position / Shear / Moment data (pick_columns), derives two diagrams with
computed axis bounds (sfd_plot, bmd_plot), renders a data table with
two-decimal formatting (build_report), and drives pdflatex over two passes
with failure capture (run_pdflatex_twice).

This file is a shallow embedding of those functions: numeric cells are
modelled by the rationals, the pandas DataFrame by an explicit column-name
list plus a cell matrix, the in-place mutation of df.columns by returning
the updated table, and the external pdflatex process by a function from the
pass number to its observed result.
-/
import Mathlib

namespace BeamReport

/-! ## Python string primitives -/

/-- Whitespace test used by Python's str.strip (ASCII range). -/
def pyIsSpace (c : Char) : Bool :=
  c == ' ' || c == '\t' || c == '\n' || c == '\r' ||
  c == Char.ofNat 11 || c == Char.ofNat 12

/-- Models Python str.strip(): drop whitespace from both ends. -/
def pyStrip (s : String) : String :=
  String.mk (((s.data.dropWhile pyIsSpace).reverse.dropWhile pyIsSpace).reverse)

/-- Models Python str.lower() (ASCII case folding). -/
def pyLower (s : String) : String :=
  String.mk (s.data.map Char.toLower)

/-- Check that the second list occurs at the head of the first. -/
def startsWithChars : List Char → List Char → Bool
  | _, [] => true
  | [], _ :: _ => false
  | c :: cs, p :: ps => c == p && startsWithChars cs ps

/-- Check that the second list occurs contiguously inside the first. -/
def containsChars : List Char → List Char → Bool
  | [], p => p.isEmpty
  | c :: cs, p => startsWithChars (c :: cs) p || containsChars cs p

/-- Models the Python substring test (needle in haystack). -/
def pyContains (haystack needle : String) : Bool :=
  containsChars haystack.data needle.data

/-- Models Python s[-n:] for n positive: the last n characters of s, or all
of s when it is shorter than n. -/
def pyTakeLast (n : ℕ) (s : String) : String :=
  String.mk ((s.data.reverse.take n).reverse)

/-! ## The table model and pick_columns (src/main.py lines 30-49) -/

/-- Model of the pandas DataFrame: ordered column names plus the cell matrix.
Cell values are rationals. -/
structure Table where
  columns : List String
  body : List (List ℚ)
deriving DecidableEq

/-- Models the exception raised by pick_columns: a ValueError whose message
names the list of (already stripped) column names that were found. -/
inductive PickError where
  | colDetect : List String → PickError
deriving DecidableEq

/-- Test from src/main.py line 37: the lowered name contains "position" or
equals one of x / distance / dist / length. -/
def matchesPos (cl : String) : Bool :=
  pyContains cl ("position") || cl == "x" || cl == "distance" ||
  cl == "dist" || cl == "length"

/-- Test from src/main.py line 39: the lowered name contains "shear". -/
def matchesShear (cl : String) : Bool :=
  pyContains cl ("shear")

/-- Test from src/main.py line 41: the lowered name contains "moment". -/
def matchesMoment (cl : String) : Bool :=
  pyContains cl ("moment")

/-- The scan loop of pick_columns (src/main.py lines 35-42): walk the
columns in table order, locking each role to its first matching column. -/
def pickLoop : List String → Option String → Option String → Option String →
    Option String × Option String × Option String
  | [], pos, shear, moment => (pos, shear, moment)
  | c :: rest, pos, shear, moment =>
    let cl := pyLower c
    pickLoop rest
      (if pos.isNone && matchesPos cl then some c else pos)
      (if shear.isNone && matchesShear cl then some c else shear)
      (if moment.isNone && matchesMoment cl then some c else moment)

/-- Embeds pick_columns (src/main.py lines 30-49).  The Python function
mutates its argument at line 32 (df.columns = df.columns.str.strip());
that mutation is modelled by returning the updated table alongside the
result.  The Python success test all([pos, shear, moment]) coincides with
the three options being some, because a matched column name is never the
empty string (the empty string matches no role pattern). -/
def pick_columns (df : Table) : Table × Except PickError (String × String × String) :=
  let cols := df.columns.map pyStrip
  let df' : Table := { df with columns := cols }
  match pickLoop cols none none none with
  | (some p, some s, some m) => (df', Except.ok (p, s, m))
  | _ => (df', Except.error (PickError.colDetect cols))

/-- First column of the list whose stripped-then-lowered form satisfies the
given role predicate: the specification's reading of role resolution. -/
def firstMatch (p : String → Bool) (cols : List String) : Option String :=
  cols.find? (fun c => p (pyLower c))

/-- Left-biased choice on options, spelled out. -/
def optOr (a b : Option String) : Option String :=
  match a with
  | some x => some x
  | none => b

/-! ## The dataset rows and the diagram builders (src/main.py lines 76-160) -/

/-- One row of the resolved dataset: position, shear force, bending moment. -/
structure Row where
  x : ℚ
  v : ℚ
  m : ℚ
deriving DecidableEq

instance rowLeDecidable : DecidableRel (fun a b : Row => a.x ≤ b.x) :=
  fun a b => inferInstanceAs (Decidable (a.x ≤ b.x))

instance rowLeTotal : IsTotal Row (fun a b => a.x ≤ b.x) :=
  ⟨fun a b => le_total a.x b.x⟩

instance rowLeTrans : IsTrans Row (fun a b => a.x ≤ b.x) :=
  ⟨fun _ _ _ hab hbc => le_trans hab hbc⟩

/-- Models df.sort_values(x_col) (src/main.py lines 78 and 122) as one
concrete ascending reorder of the rows.  The pandas call uses the default
kind (quicksort), whose order among rows with equal positions is
implementation-defined and documented as not stable, so this deterministic
stand-in fixes a tie order the program does not promise; every theorem
about tie order is therefore stated against the contract SortValuesOk
below rather than against this function, and the theorems that use this
function directly depend only on it being some ascending permutation. -/
def sortByX (rows : List Row) : List Row :=
  List.insertionSort (fun a b => a.x ≤ b.x) rows

/-- Models the documented contract of df.sort_values(x_col) with the
default kind: the output is a permutation of the rows that is ascending in
the position field.  Nothing more is promised; in particular the relative
order of rows with equal positions is unspecified (only the mergesort and
stable kinds are documented as stable). -/
def SortValuesOk (rows out : List Row) : Prop :=
  out.Perm rows ∧ List.Pairwise (fun a b : Row => a.x ≤ b.x) out

/-- Column minimum, as pandas Series.min over a nonempty column (the value
on an empty list is an unused placeholder; pandas would give NaN there). -/
def colMin (f : Row → ℚ) : List Row → ℚ
  | [] => 0
  | r :: rs => rs.foldl (fun a s => min a (f s)) (f r)

/-- Column maximum, as pandas Series.max over a nonempty column (the value
on an empty list is an unused placeholder; pandas would give NaN there). -/
def colMax (f : Row → ℚ) : List Row → ℚ
  | [] => 0
  | r :: rs => rs.foldl (fun a s => max a (f s)) (f r)

/-- The beam length L computed at src/main.py line 166: max of the position
column. -/
def beamLength (rows : List Row) : ℚ :=
  colMax Row.x rows

/-- The numeric artifacts a diagram builder computes before templating them
into the TikZ picture: the coordinate series, the padding, and the axis
bounds. -/
structure PlotData where
  series : List (ℚ × ℚ)
  pad : ℚ
  ymin : ℚ
  ymax : ℚ
deriving DecidableEq

/-- Embeds the computation of sfd_plot (src/main.py lines 76-86): sort by
position, take min and max of the shear column, pad, and emit the sorted
(position, shear) pairs. -/
def sfd_plot (rows : List Row) : PlotData :=
  let sdf := sortByX rows
  let vmin := colMin Row.v sdf
  let vmax := colMax Row.v sdf
  let p := max 5 ((0.12 : ℚ) * (|vmin| + |vmax|))
  { series := sdf.map (fun r => (r.x, r.v))
    pad := p
    ymin := vmin - p
    ymax := vmax + p }

/-- Embeds the computation of bmd_plot (src/main.py lines 120-130): as for
the shear diagram, except that the lower bound is clamped to include zero. -/
def bmd_plot (rows : List Row) : PlotData :=
  let sdf := sortByX rows
  let mmin := colMin Row.m sdf
  let mmax := colMax Row.m sdf
  let p := max 5 ((0.12 : ℚ) * (|mmin| + |mmax|))
  { series := sdf.map (fun r => (r.x, r.m))
    pad := p
    ymin := min 0 (mmin - p)
    ymax := mmax + p }

/-! ## Two-decimal cell formatting (src/main.py lines 309-314) -/

/-- Decimal digit character. -/
def digitChar (d : ℕ) : Char :=
  Char.ofNat (48 + d)

/-- Decimal digits of a number, most significant first, driven by a fuel
argument that is always sufficient when it is the number itself. -/
def natCharsAux : ℕ → ℕ → List Char
  | 0, _ => []
  | _ + 1, 0 => []
  | fuel + 1, n + 1 => natCharsAux fuel ((n + 1) / 10) ++ [digitChar ((n + 1) % 10)]

/-- Decimal rendering of a natural number. -/
def natChars (n : ℕ) : List Char :=
  if n = 0 then ['0'] else natCharsAux n n

/-- Decimal rendering of a natural number, as a string. -/
def natStr (n : ℕ) : String :=
  String.mk (natChars n)

/-- Exactly two decimal digits for a value below 100. -/
def twoDigitChars (k : ℕ) : List Char :=
  [digitChar (k / 10 % 10), digitChar (k % 10)]

/-- Round to the nearest integer, ties to even: the rounding used when a
float is formatted with a fixed number of decimals. -/
def roundHalfEven (q : ℚ) : ℤ :=
  let f := ⌊q⌋
  if q - f < 1 / 2 then f
  else if 1 / 2 < q - f then f + 1
  else if f % 2 = 0 then f else f + 1

/-- Models the Python format specifier .2f applied to a cell value: the
magnitude is scaled by 100, rounded half-to-even, and printed with a dot
before the last two digits, with a leading minus sign for negatives. -/
def formatFixed2 (q : ℚ) : String :=
  String.mk ((if q < 0 then ['-'] else []) ++
    natChars ((roundHalfEven (|q| * 100)).toNat / 100) ++
    '.' :: twoDigitChars ((roundHalfEven (|q| * 100)).toNat % 100))

/-- Embeds the data-table injection of build_report (src/main.py lines
291 and 309-314): the rows are sorted by position and each of the three
numeric fields of each row is formatted with the .2f specifier. -/
def build_report_table (rows : List Row) : List (List String) :=
  (sortByX rows).map (fun r => [formatFixed2 r.x, formatFixed2 r.v, formatFixed2 r.m])

/-- A string that ends in a dot followed by exactly two decimal digits,
with a nonempty dot-free prefix before them. -/
def TwoDecimalCell (s : String) : Prop :=
  ∃ rest d1 d2, s.data = rest ++ ['.', d1, d2] ∧
    d1.isDigit = true ∧ d2.isDigit = true ∧ rest ≠ [] ∧ '.' ∉ rest

/-! ## The two-pass compilation driver (src/main.py lines 52-73) -/

/-- The observed result of one synchronous pdflatex invocation: exit status
and the two captured output streams. -/
structure ProcResult where
  returncode : ℤ
  stdout : String
  stderr : String

/-- Models the RuntimeError raised on a failing pass: it names the log file
and the failing pass number. -/
inductive CompileError where
  | compilation : String → ℕ → CompileError
deriving DecidableEq

/-- Everything run_pdflatex_twice does that is visible to its caller: which
passes were invoked (in order), what was written to the error-log file, and
the final result. -/
structure CompileOutcome where
  passesRun : List ℕ
  logWritten : Option String
  result : Except CompileError Unit

/-- The fixed failure-log file name (src/main.py line 27). -/
def ERROR_LOG_FILE : String := "compile_error_tail.txt"

/-- The captured diagnostic text of a failing pass (src/main.py line 64):
last 4500 characters of each stream, joined by a newline, stripped. -/
def logTail (p : ProcResult) : String :=
  pyStrip (pyTakeLast 4500 p.stdout ++ "\n" ++ pyTakeLast 4500 p.stderr)

/-- The full text written to the error-log file (src/main.py line 66): a
header naming the failing pass, a blank line, and the captured tail. -/
def logText (runNo : ℕ) (p : ProcResult) : String :=
  "PDLATEX FAILED ON RUN " ++ natStr runNo ++ "\n\n" ++ logTail p ++ "\n"

/-- The loop of run_pdflatex_twice (src/main.py lines 61-73): run the listed
passes in order; on the first non-zero status, write the log file and stop
with an error; otherwise continue. -/
def runLoop (compiler : ℕ → ProcResult) : List ℕ → CompileOutcome
  | [] => { passesRun := [], logWritten := none, result := Except.ok () }
  | n :: rest =>
    let p := compiler n
    if p.returncode ≠ 0 then
      { passesRun := [n]
        logWritten := some (logText n p)
        result := Except.error (CompileError.compilation ERROR_LOG_FILE n) }
    else
      let o := runLoop compiler rest
      { passesRun := n :: o.passesRun, logWritten := o.logWritten, result := o.result }

/-- Embeds run_pdflatex_twice (src/main.py lines 52-73): the loop is run
over the pass numbers 1 and 2.  The external pdflatex process is modelled
by a function from the pass number to its observed result. -/
def run_pdflatex_twice (compiler : ℕ → ProcResult) : CompileOutcome :=
  runLoop compiler [1, 2]

/-! ## Concrete fixtures used by witnesses and counterexamples -/

/-- A table whose three column names resolve directly. -/
def resolvableTable : Table :=
  ⟨["Position (m)", "Shear Force (kN)", "Bending Moment (kNm)"], []⟩

/-- The column names of the specification's worked example. -/
def c2Table : Table := ⟨["Dist (m)", "Shear Force (kN)", "BM(kNm)"], []⟩

/-- A table whose position column name carries surrounding whitespace. -/
def c9Table : Table := ⟨[" x ", "Shear", "Moment"], [[0, 10, 20]]⟩

/-- The three rows of the specification's worked diagram example. -/
def rows6 : List Row := [⟨0, 0, 0⟩, ⟨2, 10, 20⟩, ⟨4, -10, 0⟩]

/-- Two rows sharing one position but carrying different shear values. -/
def rowsDup : List Row := [⟨1, 10, 0⟩, ⟨1, 20, 0⟩]

/-- The same two rows in the opposite order. -/
def rowsDupSwapped : List Row := [⟨1, 20, 0⟩, ⟨1, 10, 0⟩]

/-- A pdflatex stand-in that fails on every pass. -/
def failCompiler : ℕ → ProcResult := fun _ => ⟨1, "out", "err"⟩

/-! ## Column resolution: characterization, example, and frame condition -/

/-- The scan loop computes, for each role, its first match in the remaining
columns, unless the role is already locked. -/
lemma pickLoop_eq (l : List String) (pos shear moment : Option String) :
    pickLoop l pos shear moment =
      (optOr pos (firstMatch matchesPos l),
       optOr shear (firstMatch matchesShear l),
       optOr moment (firstMatch matchesMoment l)) := by
  induction l generalizing pos shear moment with
  | nil => cases pos <;> cases shear <;> cases moment <;> simp [pickLoop, firstMatch, optOr]
  | cons c rest ih =>
    simp only [pickLoop, ih]
    cases pos <;> cases shear <;> cases moment <;>
      simp [firstMatch, optOr, List.find?] <;>
      rcases h1 : matchesPos (pyLower c) <;>
      rcases h2 : matchesShear (pyLower c) <;>
      rcases h3 : matchesMoment (pyLower c) <;>
      simp [h1, h2, h3]

/-- Claim C1: pick_columns, over the whitespace-trimmed column names in
table order, succeeds if and only if each of the three roles has a matching
column; on success each role is bound to its first match (Position: name
contains "position" or equals x / distance / dist / length; Shear: name
contains "shear"; Moment: name contains "moment", all on the lower-cased
name); on failure the error names the full list of column names seen. -/
theorem pick_columns_resolves (df : Table) :
    ((∃ t, (pick_columns df).2 = Except.ok t) ↔
       ((firstMatch matchesPos (df.columns.map pyStrip)).isSome ∧
        (firstMatch matchesShear (df.columns.map pyStrip)).isSome ∧
        (firstMatch matchesMoment (df.columns.map pyStrip)).isSome)) ∧
    (∀ p s m, (pick_columns df).2 = Except.ok (p, s, m) →
       firstMatch matchesPos (df.columns.map pyStrip) = some p ∧
       firstMatch matchesShear (df.columns.map pyStrip) = some s ∧
       firstMatch matchesMoment (df.columns.map pyStrip) = some m) ∧
    (¬ ((firstMatch matchesPos (df.columns.map pyStrip)).isSome ∧
        (firstMatch matchesShear (df.columns.map pyStrip)).isSome ∧
        (firstMatch matchesMoment (df.columns.map pyStrip)).isSome) →
       (pick_columns df).2 = Except.error (PickError.colDetect (df.columns.map pyStrip))) := by
  have h := pickLoop_eq (df.columns.map pyStrip) none none none
  unfold pick_columns
  rcases hp : firstMatch matchesPos (df.columns.map pyStrip) with _ | p <;>
    rcases hs : firstMatch matchesShear (df.columns.map pyStrip) with _ | s <;>
    rcases hm : firstMatch matchesMoment (df.columns.map pyStrip) with _ | m <;>
    simp [h, hp, hs, hm, optOr]

/-- Witness for C1: a resolvable table drives the success branch. -/
theorem pick_columns_resolves_witness :
    firstMatch matchesPos (resolvableTable.columns.map pyStrip) = some ("Position (m)") ∧
    firstMatch matchesShear (resolvableTable.columns.map pyStrip) = some ("Shear Force (kN)") ∧
    firstMatch matchesMoment (resolvableTable.columns.map pyStrip) = some ("Bending Moment (kNm)") :=
  (pick_columns_resolves resolvableTable).2.1 ("Position (m)") ("Shear Force (kN)")
    ("Bending Moment (kNm)") rfl

/-- Counterexample to claim C2: on the column names Dist (m) / Shear Force
(kN) / BM(kNm) the code fails resolution instead of succeeding, because the
lowered first name only contains, but does not equal, the keyword dist, and
the lowered third name does not contain the keyword moment. -/
theorem pick_columns_example_counterexample :
    (pick_columns c2Table).2
        = Except.error (PickError.colDetect ["Dist (m)", "Shear Force (kN)", "BM(kNm)"]) ∧
    (pick_columns c2Table).2 ≠ Except.ok ("Dist (m)", "Shear Force (kN)", "BM(kNm)") :=
  ⟨rfl, fun h => nomatch h⟩

/-- Claim C2 as amended: both example column-name lists fail resolution; in
the first only the Shear role finds a match. -/
theorem pick_columns_example_amended :
    (pick_columns c2Table).2
        = Except.error (PickError.colDetect ["Dist (m)", "Shear Force (kN)", "BM(kNm)"]) ∧
    firstMatch matchesShear (c2Table.columns.map pyStrip) = some ("Shear Force (kN)") ∧
    firstMatch matchesPos (c2Table.columns.map pyStrip) = none ∧
    firstMatch matchesMoment (c2Table.columns.map pyStrip) = none ∧
    (pick_columns ⟨["A", "B", "C"], []⟩).2
        = Except.error (PickError.colDetect ["A", "B", "C"]) :=
  ⟨rfl, rfl, rfl, rfl, rfl⟩

/-- Counterexample to claim C9: pick_columns does mutate the table it is
given — a column name with surrounding whitespace is replaced by its
trimmed form, so the caller's table is changed after resolution. -/
theorem pick_columns_mutation_counterexample :
    (pick_columns c9Table).1 ≠ c9Table ∧
    (pick_columns c9Table).1.columns = ["x", "Shear", "Moment"] := by
  constructor
  · decide
  · rfl

/-- Claim C9 as amended: pick_columns never changes the cell values, and it
rewrites the column names to their whitespace-trimmed forms, so the table
is left unchanged when (and only when) no column name carries surrounding
whitespace. -/
theorem pick_columns_frame (df : Table) :
    (pick_columns df).1.body = df.body ∧
    (pick_columns df).1.columns = df.columns.map pyStrip ∧
    ((∀ c ∈ df.columns, pyStrip c = c) → (pick_columns df).1 = df) := by
  have h12 : (pick_columns df).1 = { df with columns := df.columns.map pyStrip } := by
    rcases h : pickLoop (df.columns.map pyStrip) none none none with ⟨_ | p, _ | s, _ | m⟩ <;>
      simp [pick_columns, h]
  refine ⟨by rw [h12], by rw [h12], fun hall => ?_⟩
  have hmap : df.columns.map pyStrip = df.columns := by
    rw [List.map_congr_left hall]; exact List.map_id _
  rw [h12]
  cases df with
  | mk cols body => simp only at hmap ⊢; rw [hmap]

/-- Witness for C9 as amended: a table with already-clean column names is
returned unchanged. -/
theorem pick_columns_frame_witness :
    (pick_columns resolvableTable).1 = resolvableTable :=
  (pick_columns_frame resolvableTable).2.2 (by decide)

/-! ## Column minimum and maximum: bounds, membership, permutation -/

lemma foldl_min_le_init (f : Row → ℚ) : ∀ (l : List Row) (a : ℚ),
    l.foldl (fun x r => min x (f r)) a ≤ a
  | [], a => le_refl a
  | r :: rs, a =>
    le_trans (foldl_min_le_init f rs (min a (f r))) (min_le_left _ _)

lemma foldl_min_le_mem (f : Row → ℚ) : ∀ (l : List Row) (a : ℚ) {r : Row}, r ∈ l →
    l.foldl (fun x r => min x (f r)) a ≤ f r
  | c :: t, a, r, h => by
    rcases List.mem_cons.mp h with h | h
    · subst h
      exact le_trans (foldl_min_le_init f t (min a (f r))) (min_le_right _ _)
    · exact foldl_min_le_mem f t (min a (f c)) h

lemma foldl_min_cases (f : Row → ℚ) : ∀ (l : List Row) (a : ℚ),
    l.foldl (fun x r => min x (f r)) a = a ∨
    ∃ r ∈ l, l.foldl (fun x r => min x (f r)) a = f r
  | [], _ => Or.inl rfl
  | c :: t, a => by
    rcases foldl_min_cases f t (min a (f c)) with h | ⟨r, hr, he⟩
    · simp only [List.foldl_cons] at *
      rcases min_cases a (f c) with ⟨hm, _⟩ | ⟨hm, _⟩
      · exact Or.inl (by rw [h, hm])
      · exact Or.inr ⟨c, List.mem_cons_self c t, by rw [h, hm]⟩
    · exact Or.inr ⟨r, List.mem_cons_of_mem c hr, he⟩

lemma colMin_mem (f : Row → ℚ) {l : List Row} (h : l ≠ []) :
    ∃ r ∈ l, colMin f l = f r := by
  cases l with
  | nil => exact absurd rfl h
  | cons c t =>
    rcases foldl_min_cases f t (f c) with hc | ⟨r, hr, he⟩
    · exact ⟨c, List.mem_cons_self c t, hc⟩
    · exact ⟨r, List.mem_cons_of_mem c hr, he⟩

lemma colMin_le (f : Row → ℚ) {l : List Row} {r : Row} (h : r ∈ l) :
    colMin f l ≤ f r := by
  cases l with
  | nil => cases h
  | cons c t =>
    rcases List.mem_cons.mp h with h | h
    · subst h; exact foldl_min_le_init f t (f r)
    · exact foldl_min_le_mem f t (f c) h

lemma colMin_perm (f : Row → ℚ) {l l' : List Row} (hp : l.Perm l') :
    colMin f l = colMin f l' := by
  cases l with
  | nil => rw [List.Perm.eq_nil (List.Perm.symm hp)]
  | cons c t =>
    have hl' : l' ≠ [] := by
      intro h; subst h; exact List.noConfusion (List.Perm.eq_nil hp)
    obtain ⟨r, hr, he⟩ := colMin_mem f (l := c :: t) (by simp)
    obtain ⟨r', hr', he'⟩ := colMin_mem f hl'
    have h1 : colMin f (c :: t) ≤ f r' := colMin_le f ((List.Perm.mem_iff hp).mpr hr')
    have h2 : colMin f l' ≤ f r := colMin_le f ((List.Perm.mem_iff hp).mp hr)
    rw [he'] at *
    rw [he] at *
    exact le_antisymm h1 h2

lemma foldl_max_ge_init (f : Row → ℚ) : ∀ (l : List Row) (a : ℚ),
    a ≤ l.foldl (fun x r => max x (f r)) a
  | [], a => le_refl a
  | r :: rs, a =>
    le_trans (le_max_left _ _) (foldl_max_ge_init f rs (max a (f r)))

lemma foldl_max_ge_mem (f : Row → ℚ) : ∀ (l : List Row) (a : ℚ) {r : Row}, r ∈ l →
    f r ≤ l.foldl (fun x r => max x (f r)) a
  | c :: t, a, r, h => by
    rcases List.mem_cons.mp h with h | h
    · subst h
      exact le_trans (le_max_right _ _) (foldl_max_ge_init f t (max a (f r)))
    · exact foldl_max_ge_mem f t (max a (f c)) h

lemma foldl_max_cases (f : Row → ℚ) : ∀ (l : List Row) (a : ℚ),
    l.foldl (fun x r => max x (f r)) a = a ∨
    ∃ r ∈ l, l.foldl (fun x r => max x (f r)) a = f r
  | [], _ => Or.inl rfl
  | c :: t, a => by
    rcases foldl_max_cases f t (max a (f c)) with h | ⟨r, hr, he⟩
    · simp only [List.foldl_cons] at *
      rcases max_cases a (f c) with ⟨hm, _⟩ | ⟨hm, _⟩
      · exact Or.inl (by rw [h, hm])
      · exact Or.inr ⟨c, List.mem_cons_self c t, by rw [h, hm]⟩
    · exact Or.inr ⟨r, List.mem_cons_of_mem c hr, he⟩

lemma colMax_mem (f : Row → ℚ) {l : List Row} (h : l ≠ []) :
    ∃ r ∈ l, colMax f l = f r := by
  cases l with
  | nil => exact absurd rfl h
  | cons c t =>
    rcases foldl_max_cases f t (f c) with hc | ⟨r, hr, he⟩
    · exact ⟨c, List.mem_cons_self c t, hc⟩
    · exact ⟨r, List.mem_cons_of_mem c hr, he⟩

lemma colMax_ge (f : Row → ℚ) {l : List Row} {r : Row} (h : r ∈ l) :
    f r ≤ colMax f l := by
  cases l with
  | nil => cases h
  | cons c t =>
    rcases List.mem_cons.mp h with h | h
    · subst h; exact foldl_max_ge_init f t (f r)
    · exact foldl_max_ge_mem f t (f c) h

lemma colMax_perm (f : Row → ℚ) {l l' : List Row} (hp : l.Perm l') :
    colMax f l = colMax f l' := by
  cases l with
  | nil => rw [List.Perm.eq_nil (List.Perm.symm hp)]
  | cons c t =>
    have hl' : l' ≠ [] := by
      intro h; subst h; exact List.noConfusion (List.Perm.eq_nil hp)
    obtain ⟨r, hr, he⟩ := colMax_mem f (l := c :: t) (by simp)
    obtain ⟨r', hr', he'⟩ := colMax_mem f hl'
    have h1 : f r' ≤ colMax f (c :: t) := colMax_ge f ((List.Perm.mem_iff hp).mpr hr')
    have h2 : f r ≤ colMax f l' := colMax_ge f ((List.Perm.mem_iff hp).mp hr)
    rw [he'] at *
    rw [he] at *
    exact le_antisymm h2 h1

lemma sortByX_perm (rows : List Row) : (sortByX rows).Perm rows :=
  List.perm_insertionSort _ rows

lemma colMin_sortByX (f : Row → ℚ) (rows : List Row) :
    colMin f (sortByX rows) = colMin f rows :=
  colMin_perm f (sortByX_perm rows)

lemma colMax_sortByX (f : Row → ℚ) (rows : List Row) :
    colMax f (sortByX rows) = colMax f rows :=
  colMax_perm f (sortByX_perm rows)

lemma colMin_le_colMax (f : Row → ℚ) {l : List Row} (h : l ≠ []) :
    colMin f l ≤ colMax f l := by
  obtain ⟨r, hr, he⟩ := colMin_mem f h
  rw [he]
  exact colMax_ge f hr

/-! ## Diagram bounds and series -/

lemma sfd_plot_fields (rows : List Row) :
    (sfd_plot rows).pad = max 5 ((0.12 : ℚ) * (|colMin Row.v rows| + |colMax Row.v rows|)) ∧
    (sfd_plot rows).ymin = colMin Row.v rows - (sfd_plot rows).pad ∧
    (sfd_plot rows).ymax = colMax Row.v rows + (sfd_plot rows).pad := by
  refine ⟨?_, ?_, ?_⟩ <;> simp [sfd_plot, colMin_sortByX, colMax_sortByX]

lemma bmd_plot_fields (rows : List Row) :
    (bmd_plot rows).pad = max 5 ((0.12 : ℚ) * (|colMin Row.m rows| + |colMax Row.m rows|)) ∧
    (bmd_plot rows).ymin = min 0 (colMin Row.m rows - (bmd_plot rows).pad) ∧
    (bmd_plot rows).ymax = colMax Row.m rows + (bmd_plot rows).pad := by
  refine ⟨?_, ?_, ?_⟩ <;> simp [bmd_plot, colMin_sortByX, colMax_sortByX]

/-- Claim C4: for a nonempty dataset, both diagram builders compute their
axis padding as max(5, 0.12 times the sum of the absolute minimum and the
absolute maximum of the designated y-field over all rows), and so the
padding is always at least 5. -/
theorem diagram_padding_formula (rows : List Row) (_h : rows ≠ []) :
    (sfd_plot rows).pad = max 5 ((0.12 : ℚ) * (|colMin Row.v rows| + |colMax Row.v rows|)) ∧
    (bmd_plot rows).pad = max 5 ((0.12 : ℚ) * (|colMin Row.m rows| + |colMax Row.m rows|)) ∧
    5 ≤ (sfd_plot rows).pad ∧ 5 ≤ (bmd_plot rows).pad := by
  obtain ⟨hsp, -, -⟩ := sfd_plot_fields rows
  obtain ⟨hbp, -, -⟩ := bmd_plot_fields rows
  exact ⟨hsp, hbp, by rw [hsp]; exact le_max_left _ _, by rw [hbp]; exact le_max_left _ _⟩

/-- Witness for C4 on the worked three-row example. -/
theorem diagram_padding_formula_witness :
    rows6 ≠ [] ∧ 5 ≤ (sfd_plot rows6).pad :=
  ⟨by decide, (diagram_padding_formula rows6 (by decide)).2.2.1⟩

/-- Claim C5: for a nonempty dataset the shear diagram's bounds are the raw
extrema pushed out by the padding, with no clamping to zero, while the
moment diagram's lower bound is additionally clamped to at most zero, so it
is never positive. -/
theorem diagram_bounds_formula (rows : List Row) (_h : rows ≠ []) :
    (sfd_plot rows).ymin = colMin Row.v rows - (sfd_plot rows).pad ∧
    (sfd_plot rows).ymax = colMax Row.v rows + (sfd_plot rows).pad ∧
    (bmd_plot rows).ymin = min 0 (colMin Row.m rows - (bmd_plot rows).pad) ∧
    (bmd_plot rows).ymax = colMax Row.m rows + (bmd_plot rows).pad ∧
    (bmd_plot rows).ymin ≤ 0 := by
  obtain ⟨-, hsy, hsY⟩ := sfd_plot_fields rows
  obtain ⟨-, hby, hbY⟩ := bmd_plot_fields rows
  exact ⟨hsy, hsY, hby, hbY, by rw [hby]; exact min_le_left _ _⟩

/-- Witness for C5 on the worked three-row example. -/
theorem diagram_bounds_formula_witness :
    rows6 ≠ [] ∧ (bmd_plot rows6).ymin ≤ 0 :=
  ⟨by decide, (diagram_bounds_formula rows6 (by decide)).2.2.2.2⟩

/-- Claim C6: on the worked example rows (0,0,0), (2,10,20), (4,-10,0) the
beam length is 4, both paddings are 5, the shear bounds are -15 and 15, and
the moment bounds are -5 and 25. -/
theorem diagram_bounds_example :
    beamLength rows6 = 4 ∧
    (sfd_plot rows6).pad = 5 ∧ (sfd_plot rows6).ymin = -15 ∧ (sfd_plot rows6).ymax = 15 ∧
    (bmd_plot rows6).pad = 5 ∧ (bmd_plot rows6).ymin = -5 ∧ (bmd_plot rows6).ymax = 25 := by
  have h1 : colMin Row.v rows6 = -10 := by norm_num [colMin, rows6, min_def]
  have h2 : colMax Row.v rows6 = 10 := by norm_num [colMax, rows6, max_def]
  have h3 : colMin Row.m rows6 = 0 := by norm_num [colMin, rows6, min_def]
  have h4 : colMax Row.m rows6 = 20 := by norm_num [colMax, rows6, max_def]
  have h5 : colMax Row.x rows6 = 4 := by norm_num [colMax, rows6, max_def]
  obtain ⟨hsp, hsy, hsY⟩ := sfd_plot_fields rows6
  obtain ⟨hbp, hby, hbY⟩ := bmd_plot_fields rows6
  have hps : (sfd_plot rows6).pad = 5 := by rw [hsp, h1, h2]; norm_num [max_def]
  have hpb : (bmd_plot rows6).pad = 5 := by rw [hbp, h3, h4]; norm_num [max_def]
  refine ⟨h5, hps, ?_, ?_, hpb, ?_, ?_⟩
  · rw [hsy, h1, hps]; norm_num
  · rw [hsY, h2, hps]; norm_num
  · rw [hby, h3, hpb]; norm_num [min_def]
  · rw [hbY, h4, hpb]; norm_num

/-- Rows with the duplicated position keep ascending order in either
relative arrangement, so both arrangements are permitted sort outputs. -/
lemma sortValuesOk_rowsDupSwapped : SortValuesOk rowsDup rowsDupSwapped := by
  constructor
  · exact List.Perm.swap _ _ _
  · simp [rowsDupSwapped, List.pairwise_cons]

/-- Counterexample to claim C7: the sort contract of df.sort_values with
its default kind does not guarantee a stable reorder.  For two rows with
the same position, the swapped arrangement is also a permitted ascending
output, yet its coordinate series differs from the series of the
input-order-preserving (stable) reorder, so the emitted series is not
determined to be the stable sort of the rows. -/
theorem series_stability_counterexample :
    SortValuesOk rowsDup rowsDupSwapped ∧
    sortByX rowsDup = rowsDup ∧
    rowsDupSwapped.map (fun r => (r.x, r.v)) ≠ (sortByX rowsDup).map (fun r => (r.x, r.v)) ∧
    rowsDupSwapped.filter (fun r => decide (r.x = 1))
      ≠ rowsDup.filter (fun r => decide (r.x = 1)) := by
  have hsort : sortByX rowsDup = rowsDup := by
    norm_num [sortByX, rowsDup, List.insertionSort, List.orderedInsert]
  refine ⟨sortValuesOk_rowsDupSwapped, hsort, ?_, ?_⟩
  · rw [hsort]
    norm_num [rowsDup, rowsDupSwapped]
  · norm_num [rowsDup, rowsDupSwapped, List.filter]

/-- Claim C7 as amended: in both diagrams the emitted series is an
ascending-by-position reordering of the input rows with each (position, y)
pair emitted unchanged, and for every reordering the sort contract permits
(tie order among equal positions being implementation-defined), the
derived series has as many points as the dataset has rows, its
x-coordinates are non-decreasing, and every emitted pair is an input row's
pair unchanged. -/
theorem diagram_series_ascending (rows : List Row) :
    SortValuesOk rows (sortByX rows) ∧
    (sfd_plot rows).series = (sortByX rows).map (fun r => (r.x, r.v)) ∧
    (bmd_plot rows).series = (sortByX rows).map (fun r => (r.x, r.m)) ∧
    (∀ out : List Row, SortValuesOk rows out →
      (out.map (fun r => (r.x, r.v))).length = rows.length ∧
      (out.map (fun r => (r.x, r.m))).length = rows.length ∧
      List.Chain' (fun a b : ℚ × ℚ => a.1 ≤ b.1) (out.map (fun r => (r.x, r.v))) ∧
      List.Chain' (fun a b : ℚ × ℚ => a.1 ≤ b.1) (out.map (fun r => (r.x, r.m))) ∧
      (∀ pr ∈ out.map (fun r => (r.x, r.v)), ∃ r ∈ rows, pr = (r.x, r.v)) ∧
      (∀ pr ∈ out.map (fun r => (r.x, r.m)), ∃ r ∈ rows, pr = (r.x, r.m))) := by
  refine ⟨⟨sortByX_perm rows, List.sorted_insertionSort _ rows⟩, rfl, rfl, ?_⟩
  rintro out ⟨hperm, hpair⟩
  have hchain : ∀ f : Row → ℚ,
      List.Chain' (fun a b : ℚ × ℚ => a.1 ≤ b.1) (out.map (fun r => (r.x, f r))) :=
    fun f => List.Pairwise.chain'
      (List.Pairwise.map (fun r => (r.x, f r)) (fun _ _ hab => hab) hpair)
  have hmem : ∀ f : Row → ℚ, ∀ pr ∈ out.map (fun r => (r.x, f r)), ∃ r ∈ rows, pr = (r.x, f r) := by
    intro f pr hpr
    obtain ⟨r, hr, rfl⟩ := List.mem_map.mp hpr
    exact ⟨r, (List.Perm.mem_iff hperm).mp hr, rfl⟩
  exact ⟨by rw [List.length_map, List.Perm.length_eq hperm],
    by rw [List.length_map, List.Perm.length_eq hperm],
    hchain Row.v, hchain Row.m, hmem Row.v, hmem Row.m⟩

/-- Witness for C7 as amended: the swapped duplicate-position arrangement
is a permitted sort output, and the derived series still has the right
point count and non-decreasing x-coordinates. -/
theorem diagram_series_ascending_witness :
    (rowsDupSwapped.map (fun r => (r.x, r.v))).length = rowsDup.length ∧
    List.Chain' (fun a b : ℚ × ℚ => a.1 ≤ b.1) (rowsDupSwapped.map (fun r => (r.x, r.v))) :=
  have h := (diagram_series_ascending rowsDup).2.2.2 rowsDupSwapped sortValuesOk_rowsDupSwapped
  ⟨h.1, h.2.2.1⟩

/-- Claim C10: for a nonempty dataset both diagrams' axis ranges are
non-degenerate: the lower bound is strictly below the upper bound and the
range is at least twice the padding, hence at least 10. -/
theorem diagram_bounds_nondegenerate (rows : List Row) (h : rows ≠ []) :
    ((5 : ℚ) ≤ (sfd_plot rows).pad ∧
     (sfd_plot rows).ymin < (sfd_plot rows).ymax ∧
     2 * (sfd_plot rows).pad ≤ (sfd_plot rows).ymax - (sfd_plot rows).ymin ∧
     (10 : ℚ) ≤ (sfd_plot rows).ymax - (sfd_plot rows).ymin) ∧
    ((5 : ℚ) ≤ (bmd_plot rows).pad ∧
     (bmd_plot rows).ymin < (bmd_plot rows).ymax ∧
     2 * (bmd_plot rows).pad ≤ (bmd_plot rows).ymax - (bmd_plot rows).ymin ∧
     (10 : ℚ) ≤ (bmd_plot rows).ymax - (bmd_plot rows).ymin) := by
  obtain ⟨hsp, hsy, hsY⟩ := sfd_plot_fields rows
  obtain ⟨hbp, hby, hbY⟩ := bmd_plot_fields rows
  have h5s : (5 : ℚ) ≤ (sfd_plot rows).pad := by rw [hsp]; exact le_max_left _ _
  have h5b : (5 : ℚ) ≤ (bmd_plot rows).pad := by rw [hbp]; exact le_max_left _ _
  have hvm : colMin Row.v rows ≤ colMax Row.v rows := colMin_le_colMax Row.v h
  have hmm : colMin Row.m rows ≤ colMax Row.m rows := colMin_le_colMax Row.m h
  have hbmin : (bmd_plot rows).ymin ≤ colMin Row.m rows - (bmd_plot rows).pad := by
    rw [hby]; exact min_le_right _ _
  constructor
  · refine ⟨h5s, ?_, ?_, ?_⟩ <;> rw [hsy, hsY] <;> linarith
  · refine ⟨h5b, ?_, ?_, ?_⟩ <;> rw [hbY] <;> linarith

/-- Witness for C10 on the worked three-row example. -/
theorem diagram_bounds_nondegenerate_witness :
    rows6 ≠ [] ∧ (10 : ℚ) ≤ (sfd_plot rows6).ymax - (sfd_plot rows6).ymin :=
  ⟨by decide, (diagram_bounds_nondegenerate rows6 (by decide)).1.2.2.2⟩

/-! ## Two-decimal formatting of the injected table -/

lemma digitChar_isDigit {d : ℕ} (h : d < 10) : (digitChar d).isDigit = true := by
  interval_cases d <;> decide

lemma natCharsAux_digits : ∀ (fuel n : ℕ), ∀ c ∈ natCharsAux fuel n, c.isDigit = true := by
  intro fuel
  induction fuel with
  | zero => intro n c hc; simp [natCharsAux] at hc
  | succ k ih =>
    intro n c hc
    cases n with
    | zero => simp [natCharsAux] at hc
    | succ m =>
      simp only [natCharsAux, List.mem_append, List.mem_singleton] at hc
      rcases hc with hc | hc
      · exact ih _ c hc
      · subst hc; exact digitChar_isDigit (Nat.mod_lt _ (by norm_num))

lemma natChars_digits {n : ℕ} : ∀ c ∈ natChars n, c.isDigit = true := by
  intro c hc
  by_cases h : n = 0
  · subst h
    simp [natChars] at hc
    subst hc; decide
  · simp only [natChars, if_neg h] at hc
    exact natCharsAux_digits n n c hc

lemma natChars_ne_nil (n : ℕ) : natChars n ≠ [] := by
  by_cases h : n = 0
  · subst h; simp [natChars]
  · obtain ⟨m, rfl⟩ := Nat.exists_eq_succ_of_ne_zero h
    simp [natChars, natCharsAux]

/-- Every value the .2f model emits ends in a dot and exactly two decimal
digits, after a nonempty dot-free integer part. -/
theorem formatFixed2_twoDecimal (q : ℚ) : TwoDecimalCell (formatFixed2 q) := by
  refine ⟨(if q < 0 then ['-'] else []) ++
      natChars ((roundHalfEven (|q| * 100)).toNat / 100),
    digitChar ((roundHalfEven (|q| * 100)).toNat % 100 / 10 % 10),
    digitChar ((roundHalfEven (|q| * 100)).toNat % 100 % 10), ?_, ?_, ?_, ?_, ?_⟩
  · simp [formatFixed2, twoDigitChars, List.append_assoc]
  · exact digitChar_isDigit (Nat.mod_lt _ (by norm_num))
  · exact digitChar_isDigit (Nat.mod_lt _ (by norm_num))
  · intro hnil
    rcases List.append_eq_nil.mp hnil with ⟨-, h2⟩
    exact natChars_ne_nil _ h2
  · intro hmem
    rcases List.mem_append.mp hmem with hm | hm
    · by_cases hq : q < 0
      · simp [hq] at hm
      · simp [hq] at hm
    · exact absurd (natChars_digits _ hm) (by decide)

/-- Claim C8: every cell of the injected data table (the position, shear
and moment field of every row) is formatted with exactly two decimal
digits, and the integral value 10 renders as 10.00. -/
theorem table_cells_two_decimals (rows : List Row) :
    (∀ row ∈ build_report_table rows, ∀ cell ∈ row, TwoDecimalCell cell) ∧
    formatFixed2 (10 : ℚ) = "10.00" := by
  constructor
  · intro row hrow cell hcell
    obtain ⟨r, -, rfl⟩ := List.mem_map.mp hrow
    simp only [List.mem_cons, List.not_mem_nil, or_false] at hcell
    rcases hcell with rfl | rfl | rfl <;> exact formatFixed2_twoDecimal _
  · have habs : |(10 : ℚ)| * 100 = 1000 := by norm_num
    have hrhe : roundHalfEven 1000 = 1000 := by
      unfold roundHalfEven
      rw [show ⌊(1000 : ℚ)⌋ = 1000 by norm_num]
      norm_num
    have hlt : ¬ ((10 : ℚ) < 0) := by norm_num
    simp only [formatFixed2, habs, hrhe, if_neg hlt]
    decide

/-- Witness for C8: a concrete cell of the worked example's table. -/
theorem table_cells_two_decimals_witness :
    TwoDecimalCell (formatFixed2 0) ∧ formatFixed2 (10 : ℚ) = "10.00" := by
  have hsort : sortByX rows6 = rows6 := by
    norm_num [sortByX, rows6, List.insertionSort, List.orderedInsert]
  have hrow : [formatFixed2 0, formatFixed2 0, formatFixed2 0] ∈ build_report_table rows6 := by
    simp only [build_report_table, hsort, rows6, List.map_cons]
    exact List.mem_cons_self _ _
  exact ⟨(table_cells_two_decimals rows6).1 _ hrow (formatFixed2 0) (List.mem_cons_self _ _),
    (table_cells_two_decimals rows6).2⟩

/-! ## The two-pass compilation contract -/

/-- Claim C3: the driver invokes the compiler at most twice, in pass order
1 then 2; a failing pass writes the last 4500 characters of each of its two
streams, concatenated, to the fixed log file under a header naming that
pass, and raises an error naming the log file and the pass, without ever
running pass 2 after a pass-1 failure; two clean passes return normally
with nothing written. -/
theorem run_pdflatex_twice_spec (compiler : ℕ → ProcResult) :
    ((run_pdflatex_twice compiler).passesRun = [1] ∨
     (run_pdflatex_twice compiler).passesRun = [1, 2]) ∧
    (run_pdflatex_twice compiler).passesRun.length ≤ 2 ∧
    ((compiler 1).returncode ≠ 0 →
      run_pdflatex_twice compiler =
        { passesRun := [1]
          logWritten := some ("PDLATEX FAILED ON RUN " ++ natStr 1 ++ "\n\n" ++
            pyStrip (pyTakeLast 4500 (compiler 1).stdout ++ "\n" ++
              pyTakeLast 4500 (compiler 1).stderr) ++ "\n")
          result := Except.error (CompileError.compilation ERROR_LOG_FILE 1) }) ∧
    ((compiler 1).returncode = 0 → (compiler 2).returncode ≠ 0 →
      run_pdflatex_twice compiler =
        { passesRun := [1, 2]
          logWritten := some ("PDLATEX FAILED ON RUN " ++ natStr 2 ++ "\n\n" ++
            pyStrip (pyTakeLast 4500 (compiler 2).stdout ++ "\n" ++
              pyTakeLast 4500 (compiler 2).stderr) ++ "\n")
          result := Except.error (CompileError.compilation ERROR_LOG_FILE 2) }) ∧
    ((compiler 1).returncode = 0 → (compiler 2).returncode = 0 →
      run_pdflatex_twice compiler =
        { passesRun := [1, 2], logWritten := none, result := Except.ok () }) := by
  by_cases h1 : (compiler 1).returncode = 0 <;> by_cases h2 : (compiler 2).returncode = 0 <;>
    simp [run_pdflatex_twice, runLoop, logText, logTail, h1, h2]

/-- Witness for C3: a compiler failing on pass 1 stops the driver after one
pass with the captured log. -/
theorem run_pdflatex_twice_spec_witness :
    run_pdflatex_twice failCompiler =
      { passesRun := [1]
        logWritten := some ("PDLATEX FAILED ON RUN " ++ natStr 1 ++ "\n\n" ++
          pyStrip (pyTakeLast 4500 (failCompiler 1).stdout ++ "\n" ++
            pyTakeLast 4500 (failCompiler 1).stderr) ++ "\n")
        result := Except.error (CompileError.compilation ERROR_LOG_FILE 1) } :=
  (run_pdflatex_twice_spec failCompiler).2.2.1 (by decide)

end BeamReport
